import Mathlib

/-!
# Verification of the db-migration orchestrator

Shallow embedding of the Go program in `src/main.go` and its two variants
(`src/unnamed/part_000`, `src/unnamed/part_001`).  The program is a linear
sequence of shell-outs (psql / pg_dump / pg_restore) and filesystem
operations; we model each external effect's outcome as an explicit
environment parameter (an `Option String` error, `none` meaning the Go
error was `nil`) and the orchestrator as a pure function producing a trace
of the effects it performs together with its exit code.
-/

namespace DBMig

/-- Connection-string and job-count constants from `src/unnamed/part_000`
lines 14-18 (the variant with concrete values; `src/main.go` and
`src/unnamed/part_001` use placeholder strings in the same positions). -/
def sourceDB : String :=
  "user=flipopay password=flipopay@123 dbname=unbadged-db host=localhost port=5433 sslmode=disable"

/-- Destination connection string, `src/unnamed/part_000` line 16. -/
def destinationDB : String :=
  "user=zeuz password='zeuz@123' dbname=pg host=localhost port=5434 sslmode=disable"

/-- Number of parallel jobs forwarded to pg_dump / pg_restore. -/
def jobs : String := "4"

/-! ## Step-level model of `main` (src/main.go lines 20-76, identical in
src/unnamed/part_000 lines 20-76 up to the names of steps 2-9). -/

/-- The nine steps of the orchestrator, in source order. -/
inductive Step where
  | connectivity
  | cleanDest
  | resetDir
  | dumpSchema
  | restoreSchema
  | disableConstraints
  | dumpData
  | restoreData
  | enableConstraints
  deriving DecidableEq, Repr, Fintype

/-- Environment: the outcome each external effect would have if performed.
`none` models a `nil` Go error / a successful subprocess exit. -/
structure Env where
  sourceOpenErr : Option String
  sourcePingErr : Option String
  destOpenErr : Option String
  destPingErr : Option String
  cleanErr : Option String
  resetErr : Option String
  dumpSchemaErr : Option String
  restoreSchemaErr : Option String
  disableErr : Option String
  dumpDataErr : Option String
  restoreDataErr : Option String
  enableErr : Option String

/-- `testDBConnection` (src/main.go lines 79-95): returns `false` when
`sql.Open` errors, `false` when `db.Ping` errors, `true` otherwise. -/
def testDBConnection (openErr pingErr : Option String) : Bool :=
  match openErr with
  | some _ => false
  | none =>
    match pingErr with
    | some _ => false
    | none => true

/-- Observable events of a run: connection-open and ping attempts against a
named endpoint, the start of a step's work, a `log.Fatalf` diagnostic, and
the final success message. -/
inductive Event where
  | openAttempt (endpoint : String)
  | pingAttempt (endpoint : String)
  | stepStart (s : Step)
  | fatal (msg : String)
  | success
  deriving DecidableEq, Repr

/-- Trace of one `testDBConnection` call: `sql.Open` is always attempted;
`Ping` only when open succeeded. -/
def testConnTrace (openErr pingErr : Option String) (endpoint : String) :
    List Event × Bool :=
  match openErr with
  | some _ => ([Event.openAttempt endpoint], false)
  | none =>
    match pingErr with
    | some _ => ([Event.openAttempt endpoint, Event.pingAttempt endpoint], false)
    | none => ([Event.openAttempt endpoint, Event.pingAttempt endpoint], true)

/-- The error the environment assigns to each post-connectivity step. -/
def stepErr (env : Env) : Step → Option String
  | .connectivity => none
  | .cleanDest => env.cleanErr
  | .resetDir => env.resetErr
  | .dumpSchema => env.dumpSchemaErr
  | .restoreSchema => env.restoreSchemaErr
  | .disableConstraints => env.disableErr
  | .dumpData => env.dumpDataErr
  | .restoreData => env.restoreDataErr
  | .enableConstraints => env.enableErr

/-- The `log.Fatalf` format prefix `main` uses for each step (src/main.go
lines 32, 36, 41, 46, 51, 56, 61, 66, 71). -/
def stepFatalMsg : Step → String
  | .connectivity => "Database connection test failed. Migration aborted."
  | .cleanDest => "Failed to clean destination database: "
  | .resetDir => "Failed to reset backup directory: "
  | .dumpSchema => "Schema dump failed: "
  | .restoreSchema => "Schema restoration failed: "
  | .disableConstraints => "Error disabling constraints: "
  | .dumpData => "Data dump failed: "
  | .restoreData => "Data restoration failed: "
  | .enableConstraints => "Error enabling constraints: "

/-- Whether a step issues statements against the destination database
(psql or pg_restore with `--dbname=destinationDB`). -/
def touchesDestination : Step → Bool
  | .cleanDest => true
  | .restoreSchema => true
  | .disableConstraints => true
  | .restoreData => true
  | .enableConstraints => true
  | _ => false

/-- Steps 2-9 in the order `main` performs them. -/
def mainSteps : List Step :=
  [.cleanDest, .resetDir, .dumpSchema, .restoreSchema,
   .disableConstraints, .dumpData, .restoreData, .enableConstraints]

/-- All nine steps, in the order `main` performs them. -/
def stepOrder : List Step := Step.connectivity :: mainSteps

/-- Run a list of steps in order: on the first failing step emit its fatal
diagnostic and stop with exit code 1 (`log.Fatalf`); if all succeed, exit 0
with the success message. -/
def runSteps (env : Env) : List Step → List Event × Nat
  | [] => ([Event.success], 0)
  | s :: rest =>
    match stepErr env s with
    | some e => ([Event.stepStart s, Event.fatal (stepFatalMsg s ++ e)], 1)
    | none =>
      (Event.stepStart s :: (runSteps env rest).1, (runSteps env rest).2)

/-- `main` (src/main.go lines 20-76): test source connectivity, then — only
when that succeeded (Go's short-circuiting disjunct at line 31) — test
destination connectivity; on either failure `log.Fatal` with exit 1; then
run steps 2-9 in order. -/
def runMain (env : Env) : List Event × Nat :=
  if testDBConnection env.sourceOpenErr env.sourcePingErr then
    if testDBConnection env.destOpenErr env.destPingErr then
      (Event.stepStart Step.connectivity ::
        ((testConnTrace env.sourceOpenErr env.sourcePingErr "Source").1 ++
         (testConnTrace env.destOpenErr env.destPingErr "Destination").1 ++
         (runSteps env mainSteps).1),
       (runSteps env mainSteps).2)
    else
      (Event.stepStart Step.connectivity ::
        ((testConnTrace env.sourceOpenErr env.sourcePingErr "Source").1 ++
         (testConnTrace env.destOpenErr env.destPingErr "Destination").1 ++
         [Event.fatal (stepFatalMsg Step.connectivity)]),
       1)
  else
    (Event.stepStart Step.connectivity ::
      ((testConnTrace env.sourceOpenErr env.sourcePingErr "Source").1 ++
       [Event.fatal (stepFatalMsg Step.connectivity)]),
     1)

/-- The steps a trace records as started, in order. -/
def executedSteps (t : List Event) : List Step :=
  t.filterMap fun e =>
    match e with
    | .stepStart s => some s
    | _ => none

/-! ### Helper lemmas about the orchestrator model -/

lemma testConnTrace_snd (o p : Option String) (n : String) :
    (testConnTrace o p n).2 = testDBConnection o p := by
  cases o <;> cases p <;> rfl

lemma executedSteps_testConnTrace (o p : Option String) (n : String) :
    executedSteps (testConnTrace o p n).1 = [] := by
  cases o <;> cases p <;> rfl

lemma stepStart_not_mem_testConnTrace (o p : Option String) (n : String)
    (s : Step) : Event.stepStart s ∉ (testConnTrace o p n).1 := by
  cases o <;> cases p <;> simp [testConnTrace]

lemma executedSteps_append (t₁ t₂ : List Event) :
    executedSteps (t₁ ++ t₂) = executedSteps t₁ ++ executedSteps t₂ := by
  simp [executedSteps]

lemma runSteps_all_ok (env : Env) :
    ∀ l : List Step, (∀ s ∈ l, stepErr env s = none) →
      runSteps env l = (l.map Event.stepStart ++ [Event.success], 0) := by
  intro l
  induction l with
  | nil => intro _; rfl
  | cons s rest ih =>
    intro h
    have hs : stepErr env s = none := h s (by simp)
    have hr := ih (fun x hx => h x (by simp [hx]))
    simp [runSteps, hs, hr]

lemma runSteps_first_fail (env : Env) :
    ∀ (l₁ : List Step) (s : Step) (l₂ : List Step) (e : String),
      (∀ x ∈ l₁, stepErr env x = none) → stepErr env s = some e →
      runSteps env (l₁ ++ s :: l₂) =
        (l₁.map Event.stepStart ++
          [Event.stepStart s, Event.fatal (stepFatalMsg s ++ e)], 1) := by
  intro l₁
  induction l₁ with
  | nil =>
    intro s l₂ e _ hs
    simp [runSteps, hs]
  | cons x rest ih =>
    intro s l₂ e h hs
    have hx : stepErr env x = none := h x (by simp)
    have hr := ih s l₂ e (fun y hy => h y (by simp [hy])) hs
    simp [runSteps, hx, hr]

lemma executedSteps_runSteps_prefix (env : Env) :
    ∀ l : List Step, ∃ k, executedSteps (runSteps env l).1 = l.take k := by
  intro l
  induction l with
  | nil => exact ⟨0, rfl⟩
  | cons s rest ih =>
    obtain ⟨k, hk⟩ := ih
    cases he : stepErr env s with
    | some e =>
      exact ⟨1, by simp [runSteps, he, executedSteps]⟩
    | none =>
      refine ⟨k + 1, ?_⟩
      simp only [runSteps, he, List.take_succ_cons]
      simpa [executedSteps] using hk

lemma runMain_fail (env : Env) (l₁ : List Step) (s : Step) (l₂ : List Step)
    (e : String)
    (hsrc : testDBConnection env.sourceOpenErr env.sourcePingErr = true)
    (hdst : testDBConnection env.destOpenErr env.destPingErr = true)
    (hsplit : mainSteps = l₁ ++ s :: l₂)
    (hok : ∀ x ∈ l₁, stepErr env x = none)
    (hfail : stepErr env s = some e) :
    runMain env =
      (Event.stepStart Step.connectivity ::
        ((testConnTrace env.sourceOpenErr env.sourcePingErr "Source").1 ++
         (testConnTrace env.destOpenErr env.destPingErr "Destination").1 ++
         (l₁.map Event.stepStart ++
           [Event.stepStart s, Event.fatal (stepFatalMsg s ++ e)])), 1) := by
  have h1 := runSteps_first_fail env l₁ s l₂ e hok hfail
  rw [← hsplit] at h1
  simp [runMain, hsrc, hdst, h1]

lemma executedSteps_cons_stepStart (s : Step) (t : List Event) :
    executedSteps (Event.stepStart s :: t) = s :: executedSteps t := by
  simp [executedSteps]

lemma executedSteps_fatal (m : String) :
    executedSteps [Event.fatal m] = [] := rfl

lemma executedSteps_map_stepStart (l : List Step) :
    executedSteps (l.map Event.stepStart) = l := by
  induction l with
  | nil => rfl
  | cons s rest ih =>
    simp only [List.map_cons, executedSteps_cons_stepStart, ih]

lemma mem_executedSteps (s : Step) (t : List Event) :
    s ∈ executedSteps t ↔ Event.stepStart s ∈ t := by
  induction t with
  | nil => simp [executedSteps]
  | cons e rest ih =>
    cases e <;> simp [executedSteps, List.filterMap_cons, ← ih, executedSteps]

lemma runMain_fail_executed (env : Env) (l₁ : List Step) (s : Step)
    (l₂ : List Step) (e : String)
    (hsrc : testDBConnection env.sourceOpenErr env.sourcePingErr = true)
    (hdst : testDBConnection env.destOpenErr env.destPingErr = true)
    (hsplit : mainSteps = l₁ ++ s :: l₂)
    (hok : ∀ x ∈ l₁, stepErr env x = none)
    (hfail : stepErr env s = some e) :
    executedSteps (runMain env).1 = Step.connectivity :: (l₁ ++ [s]) := by
  rw [runMain_fail env l₁ s l₂ e hsrc hdst hsplit hok hfail]
  show executedSteps (Event.stepStart Step.connectivity :: _) = _
  rw [executedSteps_cons_stepStart, executedSteps_append, executedSteps_append,
    executedSteps_testConnTrace, executedSteps_testConnTrace,
    executedSteps_append, executedSteps_map_stepStart]
  simp [executedSteps]

lemma runMain_no_later_step (env : Env) (l₁ : List Step) (s : Step)
    (l₂ : List Step) (e : String)
    (hsrc : testDBConnection env.sourceOpenErr env.sourcePingErr = true)
    (hdst : testDBConnection env.destOpenErr env.destPingErr = true)
    (hsplit : mainSteps = l₁ ++ s :: l₂)
    (hok : ∀ x ∈ l₁, stepErr env x = none)
    (hfail : stepErr env s = some e) :
    ∀ s' ∈ l₂, Event.stepStart s' ∉ (runMain env).1 := by
  intro s' hs'
  have hnd : (l₁ ++ s :: l₂).Nodup := by
    rw [← hsplit]; decide
  have hd := List.nodup_append.mp hnd
  have hne_l₁ : s' ∉ l₁ := fun hmem => hd.2.2 hmem (by simp [hs'])
  have hne_s : s' ≠ s := by
    intro h
    exact (List.nodup_cons.mp hd.2.1).1 (h ▸ hs')
  have hconn : Step.connectivity ∉ mainSteps := by decide
  have hmem_main : s' ∈ mainSteps := by
    rw [hsplit]; simp [hs']
  have hne_conn : s' ≠ Step.connectivity := fun h => hconn (h ▸ hmem_main)
  intro hmem
  have h1 : s' ∈ executedSteps (runMain env).1 :=
    (mem_executedSteps s' _).mpr hmem
  rw [runMain_fail_executed env l₁ s l₂ e hsrc hdst hsplit hok hfail] at h1
  simp only [List.mem_cons, List.mem_append, List.mem_singleton,
    List.not_mem_nil, or_false] at h1
  rcases h1 with h | h | h
  · exact hne_conn h
  · exact hne_l₁ h
  · exact hne_s h

lemma executedSteps_runMain (env : Env) :
    ∃ k, executedSteps (runMain env).1 = stepOrder.take k := by
  by_cases hsrc : testDBConnection env.sourceOpenErr env.sourcePingErr = true
  · by_cases hdst : testDBConnection env.destOpenErr env.destPingErr = true
    · obtain ⟨k, hk⟩ := executedSteps_runSteps_prefix env mainSteps
      refine ⟨k + 1, ?_⟩
      simp only [runMain, hsrc, hdst, if_true]
      show executedSteps (Event.stepStart Step.connectivity :: _) = _
      rw [executedSteps_cons_stepStart, executedSteps_append, executedSteps_append,
        executedSteps_testConnTrace, executedSteps_testConnTrace, hk]
      simp [stepOrder]
    · refine ⟨1, ?_⟩
      have hdst' : testDBConnection env.destOpenErr env.destPingErr = false := by
        simpa using hdst
      simp only [runMain, hsrc, hdst', if_true, Bool.false_eq_true, if_false]
      show executedSteps (Event.stepStart Step.connectivity :: _) = _
      rw [executedSteps_cons_stepStart, executedSteps_append, executedSteps_append,
        executedSteps_testConnTrace, executedSteps_testConnTrace]
      rfl
  · refine ⟨1, ?_⟩
    have hsrc' : testDBConnection env.sourceOpenErr env.sourcePingErr = false := by
      simpa using hsrc
    simp only [runMain, hsrc', Bool.false_eq_true, if_false]
    show executedSteps (Event.stepStart Step.connectivity :: _) = _
    rw [executedSteps_cons_stepStart, executedSteps_append,
      executedSteps_testConnTrace]
    rfl

lemma runMain_src_fail (env : Env)
    (hsrc : testDBConnection env.sourceOpenErr env.sourcePingErr = false) :
    runMain env =
      (Event.stepStart Step.connectivity ::
        ((testConnTrace env.sourceOpenErr env.sourcePingErr "Source").1 ++
         [Event.fatal (stepFatalMsg Step.connectivity)]), 1) := by
  simp [runMain, hsrc]

lemma runMain_dst_fail (env : Env)
    (hsrc : testDBConnection env.sourceOpenErr env.sourcePingErr = true)
    (hdst : testDBConnection env.destOpenErr env.destPingErr = false) :
    runMain env =
      (Event.stepStart Step.connectivity ::
        ((testConnTrace env.sourceOpenErr env.sourcePingErr "Source").1 ++
         (testConnTrace env.destOpenErr env.destPingErr "Destination").1 ++
         [Event.fatal (stepFatalMsg Step.connectivity)]), 1) := by
  simp [runMain, hsrc, hdst]

lemma testConnTrace_events (o p : Option String) (n : String) :
    ∀ ev ∈ (testConnTrace o p n).1,
      ev = Event.openAttempt n ∨ ev = Event.pingAttempt n := by
  cases o <;> cases p <;> simp [testConnTrace]

lemma openAttempt_mem_testConnTrace (o p : Option String) (n : String) :
    Event.openAttempt n ∈ (testConnTrace o p n).1 := by
  cases o <;> cases p <;> simp [testConnTrace]

lemma runMain_shape (env : Env) :
    ∃ post, (runMain env).1 =
      (Event.stepStart Step.connectivity ::
        (testConnTrace env.sourceOpenErr env.sourcePingErr "Source").1) ++ post := by
  by_cases hsrc : testDBConnection env.sourceOpenErr env.sourcePingErr = true
  · by_cases hdst : testDBConnection env.destOpenErr env.destPingErr = true
    · exact ⟨(testConnTrace env.destOpenErr env.destPingErr "Destination").1 ++
        (runSteps env mainSteps).1, by simp [runMain, hsrc, hdst]⟩
    · have hdst' : testDBConnection env.destOpenErr env.destPingErr = false := by
        simpa using hdst
      exact ⟨(testConnTrace env.destOpenErr env.destPingErr "Destination").1 ++
        [Event.fatal (stepFatalMsg Step.connectivity)],
        by simp [runMain_dst_fail env hsrc hdst']⟩
  · have hsrc' : testDBConnection env.sourceOpenErr env.sourcePingErr = false := by
      simpa using hsrc
    exact ⟨[Event.fatal (stepFatalMsg Step.connectivity)],
      by simp [runMain_src_fail env hsrc']⟩

/-- C1: the nine steps execute in their fixed source order (the executed
steps are always an initial segment of `stepOrder`); under passing
connectivity checks, if the first failing step among steps 2-9 is `s`, the
run exits with code 1, emits the fatal diagnostic built from `s`'s
distinctive message (the messages are pairwise distinct, so the diagnostic
names the failed step), and no step listed after `s` ever starts; in
particular a schema-restore failure means the data-dump and data-restore
steps never execute. -/
theorem claim_C1 (env : Env) :
    (∃ k, executedSteps (runMain env).1 = stepOrder.take k) ∧
    (∀ s₁ s₂ : Step, stepFatalMsg s₁ = stepFatalMsg s₂ → s₁ = s₂) ∧
    (∀ (l₁ : List Step) (s : Step) (l₂ : List Step) (e : String),
      testDBConnection env.sourceOpenErr env.sourcePingErr = true →
      testDBConnection env.destOpenErr env.destPingErr = true →
      mainSteps = l₁ ++ s :: l₂ →
      (∀ x ∈ l₁, stepErr env x = none) →
      stepErr env s = some e →
      (runMain env).2 = 1 ∧
      Event.fatal (stepFatalMsg s ++ e) ∈ (runMain env).1 ∧
      ∀ s' ∈ l₂, Event.stepStart s' ∉ (runMain env).1) ∧
    (∀ e : String,
      testDBConnection env.sourceOpenErr env.sourcePingErr = true →
      testDBConnection env.destOpenErr env.destPingErr = true →
      env.cleanErr = none → env.resetErr = none → env.dumpSchemaErr = none →
      env.restoreSchemaErr = some e →
      Event.stepStart Step.dumpData ∉ (runMain env).1 ∧
      Event.stepStart Step.restoreData ∉ (runMain env).1 ∧
      (runMain env).2 = 1) := by
  have general : ∀ (l₁ : List Step) (s : Step) (l₂ : List Step) (e : String),
      testDBConnection env.sourceOpenErr env.sourcePingErr = true →
      testDBConnection env.destOpenErr env.destPingErr = true →
      mainSteps = l₁ ++ s :: l₂ →
      (∀ x ∈ l₁, stepErr env x = none) →
      stepErr env s = some e →
      (runMain env).2 = 1 ∧
      Event.fatal (stepFatalMsg s ++ e) ∈ (runMain env).1 ∧
      ∀ s' ∈ l₂, Event.stepStart s' ∉ (runMain env).1 := by
    intro l₁ s l₂ e hsrc hdst hsplit hok hfail
    refine ⟨?_, ?_, runMain_no_later_step env l₁ s l₂ e hsrc hdst hsplit hok hfail⟩
    · rw [runMain_fail env l₁ s l₂ e hsrc hdst hsplit hok hfail]
    · rw [runMain_fail env l₁ s l₂ e hsrc hdst hsplit hok hfail]
      simp
  refine ⟨executedSteps_runMain env, by decide, general, ?_⟩
  intro e hsrc hdst hc hr hds hrs
  have h := general [Step.cleanDest, Step.resetDir, Step.dumpSchema]
    Step.restoreSchema
    [Step.disableConstraints, Step.dumpData, Step.restoreData, Step.enableConstraints]
    e hsrc hdst rfl
    (by intro x hx
        have hx' : x = Step.cleanDest ∨ x = Step.resetDir ∨ x = Step.dumpSchema := by
          simpa using hx
        rcases hx' with rfl | rfl | rfl
        · exact hc
        · exact hr
        · exact hds)
    hrs
  exact ⟨h.2.2 Step.dumpData (by simp), h.2.2 Step.restoreData (by simp), h.1⟩

/-- Environment in which both connectivity checks pass, steps 2-4 succeed
and the schema-restore step fails; used to instantiate the claims. -/
def envSchemaRestoreFail : Env :=
  { sourceOpenErr := none, sourcePingErr := none,
    destOpenErr := none, destPingErr := none,
    cleanErr := none, resetErr := none, dumpSchemaErr := none,
    restoreSchemaErr := some "pg_restore: error: could not read from input file",
    disableErr := none, dumpDataErr := none, restoreDataErr := none,
    enableErr := none }

/-- Witness for C1: with the schema-restore step failing concretely, the
run exits 1 and the data-dump / data-restore steps never start. -/
theorem claim_C1_witness :
    Event.stepStart Step.dumpData ∉ (runMain envSchemaRestoreFail).1 ∧
    Event.stepStart Step.restoreData ∉ (runMain envSchemaRestoreFail).1 ∧
    (runMain envSchemaRestoreFail).2 = 1 :=
  (claim_C1 envSchemaRestoreFail).2.2.2
    "pg_restore: error: could not read from input file"
    rfl rfl rfl rfl rfl rfl

/-- C4: the connectivity check succeeds iff both opening the connection and
the liveness ping succeed; and whenever the destination connectivity check
would fail, the run exits 1 and no step that issues statements against the
destination ever starts (the destination is left unmodified). -/
theorem claim_C4 :
    (∀ openErr pingErr : Option String,
      testDBConnection openErr pingErr = true ↔
        openErr = none ∧ pingErr = none) ∧
    (∀ env : Env,
      testDBConnection env.destOpenErr env.destPingErr = false →
      (runMain env).2 = 1 ∧
      ∀ s : Step, touchesDestination s = true →
        Event.stepStart s ∉ (runMain env).1) := by
  constructor
  · intro o p
    cases o <;> cases p <;> simp [testDBConnection]
  · intro env hdst
    have hexec : executedSteps (runMain env).1 = [Step.connectivity] ∧
        (runMain env).2 = 1 := by
      by_cases hsrc : testDBConnection env.sourceOpenErr env.sourcePingErr = true
      · rw [runMain_dst_fail env hsrc hdst]
        constructor
        · show executedSteps (Event.stepStart Step.connectivity :: _) = _
          rw [executedSteps_cons_stepStart, executedSteps_append,
            executedSteps_append, executedSteps_testConnTrace,
            executedSteps_testConnTrace]
          rfl
        · rfl
      · have hsrc' : testDBConnection env.sourceOpenErr env.sourcePingErr = false := by
          simpa using hsrc
        rw [runMain_src_fail env hsrc']
        constructor
        · show executedSteps (Event.stepStart Step.connectivity :: _) = _
          rw [executedSteps_cons_stepStart, executedSteps_append,
            executedSteps_testConnTrace]
          rfl
        · rfl
    refine ⟨hexec.2, ?_⟩
    intro s hs hmem
    have h1 : s ∈ executedSteps (runMain env).1 :=
      (mem_executedSteps s _).mpr hmem
    rw [hexec.1] at h1
    simp only [List.mem_singleton] at h1
    rw [h1] at hs
    simp [touchesDestination] at hs

/-- Environment in which the destination ping fails (for instance a wrong
port); the source side is healthy. -/
def envDestUnreachable : Env :=
  { sourceOpenErr := none, sourcePingErr := none,
    destOpenErr := none,
    destPingErr := some "dial tcp 127.0.0.1:5434: connect: connection refused",
    cleanErr := none, resetErr := none, dumpSchemaErr := none,
    restoreSchemaErr := none, disableErr := none, dumpDataErr := none,
    restoreDataErr := none, enableErr := none }

/-- Witness for C4: the check rejects a failing ping, and at the concrete
environment with an unreachable destination the run exits 1 and the
destination-cleanup step never starts. -/
theorem claim_C4_witness :
    (¬ testDBConnection none (some "timeout") = true) ∧
    (runMain envDestUnreachable).2 = 1 ∧
    Event.stepStart Step.cleanDest ∉ (runMain envDestUnreachable).1 := by
  have h := claim_C4.2 envDestUnreachable rfl
  refine ⟨?_, h.1, h.2 Step.cleanDest rfl⟩
  intro hcontra
  have := (claim_C4.1 none (some "timeout")).mp hcontra
  exact Option.some_ne_none "timeout" this.2

/-- C9: the source endpoint is probed first — the trace decomposes as a
block of source-side events (containing the source open attempt and no
destination event) followed by the rest — and when the source connectivity
check fails, the destination endpoint is never probed at all. -/
theorem claim_C9 (env : Env) :
    (∃ pre post, (runMain env).1 = pre ++ post ∧
      Event.openAttempt "Source" ∈ pre ∧
      ∀ ev ∈ pre, ev ≠ Event.openAttempt "Destination" ∧
        ev ≠ Event.pingAttempt "Destination") ∧
    (testDBConnection env.sourceOpenErr env.sourcePingErr = false →
      Event.openAttempt "Destination" ∉ (runMain env).1 ∧
      Event.pingAttempt "Destination" ∉ (runMain env).1) := by
  constructor
  · obtain ⟨post, hpost⟩ := runMain_shape env
    refine ⟨_, post, hpost, ?_, ?_⟩
    · exact List.mem_cons_of_mem _
        (openAttempt_mem_testConnTrace env.sourceOpenErr env.sourcePingErr "Source")
    · intro ev hev
      rcases List.mem_cons.mp hev with h | h
      · subst h; exact ⟨by simp, by simp⟩
      · rcases testConnTrace_events env.sourceOpenErr env.sourcePingErr "Source" ev h with
          h' | h' <;> subst h' <;> exact ⟨by simp, by simp⟩
  · intro hsrc
    rw [runMain_src_fail env hsrc]
    constructor
    · intro hmem
      rcases List.mem_cons.mp hmem with h | h
      · exact absurd h (by simp)
      · rcases List.mem_append.mp h with h' | h'
        · rcases testConnTrace_events env.sourceOpenErr env.sourcePingErr "Source" _ h' with
            h'' | h'' <;> simp at h''
        · simp at h'
    · intro hmem
      rcases List.mem_cons.mp hmem with h | h
      · exact absurd h (by simp)
      · rcases List.mem_append.mp h with h' | h'
        · rcases testConnTrace_events env.sourceOpenErr env.sourcePingErr "Source" _ h' with
            h'' | h'' <;> simp at h''
        · simp at h'

/-- Environment in which the source ping fails and everything else would
succeed. -/
def envSourceUnreachable : Env :=
  { sourceOpenErr := none,
    sourcePingErr := some "connection refused",
    destOpenErr := none, destPingErr := none,
    cleanErr := none, resetErr := none, dumpSchemaErr := none,
    restoreSchemaErr := none, disableErr := none, dumpDataErr := none,
    restoreDataErr := none, enableErr := none }

/-- Witness for C9: with a concrete unreachable source, the destination is
never probed. -/
theorem claim_C9_witness :
    Event.openAttempt "Destination" ∉ (runMain envSourceUnreachable).1 :=
  ((claim_C9 envSourceUnreachable).2 rfl).1

/-! ## State-level model of the destination-cleanup script
(`cleanDestinationDB`, src/main.go lines 98-117 and src/unnamed/part_000
lines 98-132).

The script is one `DO $$ ... $$;` block passed to a single `psql ... -c`
invocation: one administrative session running one statement, which in
PostgreSQL executes inside one implicit transaction, so an error anywhere
in the block rolls the whole block back.  We model the destination
database's catalog as explicit lists of qualified names, the block as the
list of directives it executes, and an externally injected failure point
`failAt` (the index of a directive the server rejects, if any); a failed
script leaves the state unchanged (rollback) and returns the error.
`DROP ... CASCADE` is modelled as removing the named object itself;
cross-schema dependency cascades are outside the model. -/

/-- Destination database catalog state: tables, sequences and enum types
as (schema name, object name) pairs, plus the session replication role
("origin" = referential-integrity enforcement on, "replica" = off). -/
structure DBState where
  tables : List (String × String)
  sequences : List (String × String)
  enumTypes : List (String × String)
  replicationRole : String
  deriving DecidableEq, Repr

/-- The individual SQL directives the cleanup block executes. -/
inductive Directive where
  | setRole (role : String)
  | dropTable (schema name : String) (ifExists cascade : Bool)
  | dropSequence (schema name : String) (ifExists cascade : Bool)
  | dropType (schema name : String) (ifExists cascade : Bool)
  deriving DecidableEq, Repr

/-- Effect of one directive on the catalog state. -/
def applyDirective (st : DBState) : Directive → DBState
  | .setRole r => { st with replicationRole := r }
  | .dropTable sch n _ _ =>
      { st with tables := st.tables.filter fun p => decide (p ≠ (sch, n)) }
  | .dropSequence sch n _ _ =>
      { st with sequences := st.sequences.filter fun p => decide (p ≠ (sch, n)) }
  | .dropType sch n _ _ =>
      { st with enumTypes := st.enumTypes.filter fun p => decide (p ≠ (sch, n)) }

/-- Names of the objects of a catalog list that live in schema `public`
(the `WHERE schemaname = 'public'` / `typnamespace = 'public'::regnamespace`
filters of the enumeration queries). -/
def publicNames (objs : List (String × String)) : List String :=
  (objs.filter fun p => decide (p.1 = "public")).map Prod.snd

/-- The directive list of the cleanup block.  `withSeqEnum = false` is the
src/main.go variant (tables only); `withSeqEnum = true` is the
src/unnamed/part_000 variant, which additionally drops all public
sequences and enum types.  Both start by setting the replication role to
`replica` and end by setting it back to `origin`; every drop is
`IF EXISTS ... CASCADE`. -/
def cleanDrops (withSeqEnum : Bool) (st : DBState) : List Directive :=
  ((publicNames st.tables).map fun n => Directive.dropTable "public" n true true) ++
  (if withSeqEnum then
     ((publicNames st.sequences).map fun n =>
       Directive.dropSequence "public" n true true) ++
     ((publicNames st.enumTypes).map fun n =>
       Directive.dropType "public" n true true)
   else [])

def cleanDirectives (withSeqEnum : Bool) (st : DBState) : List Directive :=
  Directive.setRole "replica" ::
    (cleanDrops withSeqEnum st ++ [Directive.setRole "origin"])

/-- Run a directive list as one atomic script: if the environment rejects
directive number `i` (`failAt = some i` with `i` in range), the whole
script fails and — by the implicit-transaction rollback — the state is
unchanged (the caller keeps `st`); otherwise all directives apply in
order. -/
def runScript (failAt : Option Nat) (ds : List Directive) (st : DBState) :
    Except String DBState :=
  match failAt with
  | some i =>
    if i < ds.length then .error "cleanup script failed" else
      .ok (ds.foldl applyDirective st)
  | none => .ok (ds.foldl applyDirective st)

/-- `cleanDestinationDB`: build the block from the current catalog and run
it as a single administrative script against the destination. -/
def cleanDestinationDB (withSeqEnum : Bool) (failAt : Option Nat)
    (st : DBState) : Except String DBState :=
  runScript failAt (cleanDirectives withSeqEnum st) st

/-- A directive that drops an object of schema `public` with CASCADE. -/
def isPublicCascadeDrop : Directive → Bool
  | .dropTable sch _ _ c => sch == "public" && c
  | .dropSequence sch _ _ c => sch == "public" && c
  | .dropType sch _ _ c => sch == "public" && c
  | .setRole _ => false

/-! ### Helper lemmas about the cleanup model -/

lemma foldl_applyDirective_append (ds₁ ds₂ : List Directive) (st : DBState) :
    (ds₁ ++ ds₂).foldl applyDirective st =
      ds₂.foldl applyDirective (ds₁.foldl applyDirective st) :=
  List.foldl_append _ _ _ _

lemma tables_subset_foldl (ds : List Directive) :
    ∀ (st : DBState) (p : String × String),
      p ∈ (ds.foldl applyDirective st).tables → p ∈ st.tables := by
  induction ds with
  | nil => intro st p h; exact h
  | cons d rest ih =>
    intro st p h
    have h1 : p ∈ (applyDirective st d).tables := ih _ p h
    cases d with
    | setRole r => exact h1
    | dropTable sch n ie c => exact (List.mem_filter.mp h1).1
    | dropSequence sch n ie c => exact h1
    | dropType sch n ie c => exact h1

lemma sequences_subset_foldl (ds : List Directive) :
    ∀ (st : DBState) (p : String × String),
      p ∈ (ds.foldl applyDirective st).sequences → p ∈ st.sequences := by
  induction ds with
  | nil => intro st p h; exact h
  | cons d rest ih =>
    intro st p h
    have h1 : p ∈ (applyDirective st d).sequences := ih _ p h
    cases d with
    | setRole r => exact h1
    | dropTable sch n ie c => exact h1
    | dropSequence sch n ie c => exact (List.mem_filter.mp h1).1
    | dropType sch n ie c => exact h1

lemma enumTypes_subset_foldl (ds : List Directive) :
    ∀ (st : DBState) (p : String × String),
      p ∈ (ds.foldl applyDirective st).enumTypes → p ∈ st.enumTypes := by
  induction ds with
  | nil => intro st p h; exact h
  | cons d rest ih =>
    intro st p h
    have h1 : p ∈ (applyDirective st d).enumTypes := ih _ p h
    cases d with
    | setRole r => exact h1
    | dropTable sch n ie c => exact h1
    | dropSequence sch n ie c => exact h1
    | dropType sch n ie c => exact (List.mem_filter.mp h1).1

lemma dropTable_mem_not_mem_foldl (ds : List Directive) :
    ∀ (st : DBState) (sch n : String) (ie c : Bool),
      Directive.dropTable sch n ie c ∈ ds →
      (sch, n) ∉ (ds.foldl applyDirective st).tables := by
  induction ds with
  | nil => intro st sch n ie c h; simp at h
  | cons d rest ih =>
    intro st sch n ie c h hmem
    rcases List.mem_cons.mp h with h | h
    · subst h
      have h1 : (sch, n) ∈ (applyDirective st (Directive.dropTable sch n ie c)).tables :=
        tables_subset_foldl rest _ _ hmem
      have h2 := (List.mem_filter.mp h1).2
      simp at h2
    · exact ih _ sch n ie c h hmem

lemma dropSequence_mem_not_mem_foldl (ds : List Directive) :
    ∀ (st : DBState) (sch n : String) (ie c : Bool),
      Directive.dropSequence sch n ie c ∈ ds →
      (sch, n) ∉ (ds.foldl applyDirective st).sequences := by
  induction ds with
  | nil => intro st sch n ie c h; simp at h
  | cons d rest ih =>
    intro st sch n ie c h hmem
    rcases List.mem_cons.mp h with h | h
    · subst h
      have h1 : (sch, n) ∈
          (applyDirective st (Directive.dropSequence sch n ie c)).sequences :=
        sequences_subset_foldl rest _ _ hmem
      have h2 := (List.mem_filter.mp h1).2
      simp at h2
    · exact ih _ sch n ie c h hmem

lemma dropType_mem_not_mem_foldl (ds : List Directive) :
    ∀ (st : DBState) (sch n : String) (ie c : Bool),
      Directive.dropType sch n ie c ∈ ds →
      (sch, n) ∉ (ds.foldl applyDirective st).enumTypes := by
  induction ds with
  | nil => intro st sch n ie c h; simp at h
  | cons d rest ih =>
    intro st sch n ie c h hmem
    rcases List.mem_cons.mp h with h | h
    · subst h
      have h1 : (sch, n) ∈
          (applyDirective st (Directive.dropType sch n ie c)).enumTypes :=
        enumTypes_subset_foldl rest _ _ hmem
      have h2 := (List.mem_filter.mp h1).2
      simp at h2
    · exact ih _ sch n ie c h hmem

/-- A directive that touches only schema-`public` objects (or the session
role). -/
def onlyPublic : Directive → Bool
  | .setRole _ => true
  | .dropTable sch _ _ _ => sch == "public"
  | .dropSequence sch _ _ _ => sch == "public"
  | .dropType sch _ _ _ => sch == "public"

lemma mem_publicNames (objs : List (String × String)) (n : String) :
    n ∈ publicNames objs ↔ ("public", n) ∈ objs := by
  constructor
  · intro h
    obtain ⟨p, hp, hpn⟩ := List.mem_map.mp h
    have h1 := List.mem_filter.mp hp
    have h2 : p.1 = "public" := by simpa using h1.2
    have : p = ("public", n) := by
      cases p
      simp_all
    exact this ▸ h1.1
  · intro h
    exact List.mem_map.mpr ⟨("public", n), List.mem_filter.mpr ⟨h, by simp⟩, rfl⟩

lemma cleanDirectives_onlyPublic (wse : Bool) (st : DBState) :
    ∀ d ∈ cleanDirectives wse st, onlyPublic d = true := by
  intro d hd
  rcases List.mem_cons.mp hd with rfl | hd
  · rfl
  rcases List.mem_append.mp hd with hd | hd
  · rcases List.mem_append.mp hd with hd | hd
    · obtain ⟨x, _, rfl⟩ := List.mem_map.mp hd
      rfl
    · cases wse
      · simp at hd
      · rcases (by simpa using hd :
            (∃ a ∈ publicNames st.sequences,
              Directive.dropSequence "public" a true true = d) ∨
            ∃ a ∈ publicNames st.enumTypes,
              Directive.dropType "public" a true true = d) with
          ⟨x, _, rfl⟩ | ⟨x, _, rfl⟩ <;> rfl
  · rw [List.mem_singleton.mp hd]
    rfl

lemma tables_foldl_frame (ds : List Directive) :
    (∀ d ∈ ds, onlyPublic d = true) →
    ∀ (st : DBState) (sch n : String), sch ≠ "public" →
      ((sch, n) ∈ (ds.foldl applyDirective st).tables ↔ (sch, n) ∈ st.tables) := by
  induction ds with
  | nil => intro _ st sch n _; exact Iff.rfl
  | cons d rest ih =>
    intro hds st sch n hsch
    have hrest := ih (fun x hx => hds x (List.mem_cons_of_mem _ hx)) (applyDirective st d) sch n hsch
    rw [List.foldl_cons, hrest]
    cases d with
    | setRole r => exact Iff.rfl
    | dropTable sch' n' ie c =>
      have hpub : sch' = "public" := by
        have := hds _ (List.mem_cons_self _ _)
        simpa [onlyPublic] using this
      subst hpub
      have hne : ((sch, n) : String × String) ≠ ("public", n') := by
        intro hEq
        exact hsch (congrArg Prod.fst hEq)
      simp [applyDirective, List.mem_filter, hne]
    | dropSequence sch' n' ie c => exact Iff.rfl
    | dropType sch' n' ie c => exact Iff.rfl

lemma sequences_foldl_frame (ds : List Directive) :
    (∀ d ∈ ds, onlyPublic d = true) →
    ∀ (st : DBState) (sch n : String), sch ≠ "public" →
      ((sch, n) ∈ (ds.foldl applyDirective st).sequences ↔
        (sch, n) ∈ st.sequences) := by
  induction ds with
  | nil => intro _ st sch n _; exact Iff.rfl
  | cons d rest ih =>
    intro hds st sch n hsch
    have hrest := ih (fun x hx => hds x (List.mem_cons_of_mem _ hx)) (applyDirective st d) sch n hsch
    rw [List.foldl_cons, hrest]
    cases d with
    | setRole r => exact Iff.rfl
    | dropTable sch' n' ie c => exact Iff.rfl
    | dropSequence sch' n' ie c =>
      have hpub : sch' = "public" := by
        have := hds _ (List.mem_cons_self _ _)
        simpa [onlyPublic] using this
      subst hpub
      have hne : ((sch, n) : String × String) ≠ ("public", n') := by
        intro hEq
        exact hsch (congrArg Prod.fst hEq)
      simp [applyDirective, List.mem_filter, hne]
    | dropType sch' n' ie c => exact Iff.rfl

lemma enumTypes_foldl_frame (ds : List Directive) :
    (∀ d ∈ ds, onlyPublic d = true) →
    ∀ (st : DBState) (sch n : String), sch ≠ "public" →
      ((sch, n) ∈ (ds.foldl applyDirective st).enumTypes ↔
        (sch, n) ∈ st.enumTypes) := by
  induction ds with
  | nil => intro _ st sch n _; exact Iff.rfl
  | cons d rest ih =>
    intro hds st sch n hsch
    have hrest := ih (fun x hx => hds x (List.mem_cons_of_mem _ hx)) (applyDirective st d) sch n hsch
    rw [List.foldl_cons, hrest]
    cases d with
    | setRole r => exact Iff.rfl
    | dropTable sch' n' ie c => exact Iff.rfl
    | dropSequence sch' n' ie c => exact Iff.rfl
    | dropType sch' n' ie c =>
      have hpub : sch' = "public" := by
        have := hds _ (List.mem_cons_self _ _)
        simpa [onlyPublic] using this
      subst hpub
      have hne : ((sch, n) : String × String) ≠ ("public", n') := by
        intro hEq
        exact hsch (congrArg Prod.fst hEq)
      simp [applyDirective, List.mem_filter, hne]

lemma runScript_ok (failAt : Option Nat) (ds : List Directive) (st st' : DBState)
    (h : runScript failAt ds st = .ok st') :
    st' = ds.foldl applyDirective st := by
  cases failAt with
  | none =>
    simpa [runScript] using h.symm
  | some i =>
    by_cases hi : i < ds.length
    · simp [runScript, hi] at h
    · simp only [runScript, hi, if_false] at h
      simpa using h.symm

lemma cleanDirectives_foldl_role (wse : Bool) (st st₀ : DBState) :
    ((cleanDirectives wse st).foldl applyDirective st₀).replicationRole =
      "origin" := by
  show ((Directive.setRole "replica" ::
    (cleanDrops wse st ++ [Directive.setRole "origin"])).foldl
      applyDirective st₀).replicationRole = "origin"
  rw [List.foldl_cons, foldl_applyDirective_append]
  rfl

lemma dropTable_mem_cleanDrops (wse : Bool) (st : DBState) (n : String)
    (h : ("public", n) ∈ st.tables) :
    Directive.dropTable "public" n true true ∈ cleanDrops wse st :=
  List.mem_append_left _
    (List.mem_map.mpr ⟨n, (mem_publicNames _ _).mpr h, rfl⟩)

lemma dropSequence_mem_cleanDrops (st : DBState) (n : String)
    (h : ("public", n) ∈ st.sequences) :
    Directive.dropSequence "public" n true true ∈ cleanDrops true st :=
  List.mem_append_right _
    (List.mem_append_left _
      (List.mem_map.mpr ⟨n, (mem_publicNames _ _).mpr h, rfl⟩))

lemma dropType_mem_cleanDrops (st : DBState) (n : String)
    (h : ("public", n) ∈ st.enumTypes) :
    Directive.dropType "public" n true true ∈ cleanDrops true st :=
  List.mem_append_right _
    (List.mem_append_right _
      (List.mem_map.mpr ⟨n, (mem_publicNames _ _).mpr h, rfl⟩))

lemma cleanDrops_cascade (wse : Bool) (st : DBState) :
    ∀ d ∈ cleanDrops wse st, isPublicCascadeDrop d = true := by
  intro d hd
  rcases List.mem_append.mp hd with hd | hd
  · obtain ⟨x, _, rfl⟩ := List.mem_map.mp hd
    rfl
  · cases wse
    · simp at hd
    · rcases (by simpa using hd :
          (∃ a ∈ publicNames st.sequences,
            Directive.dropSequence "public" a true true = d) ∨
          ∃ a ∈ publicNames st.enumTypes,
            Directive.dropType "public" a true true = d) with
        ⟨x, _, rfl⟩ | ⟨x, _, rfl⟩ <;> rfl

lemma clean_ok_post (wse : Bool) (failAt : Option Nat) (st st' : DBState)
    (h : cleanDestinationDB wse failAt st = .ok st') :
    st'.replicationRole = "origin" ∧
    (∀ n, ("public", n) ∉ st'.tables) ∧
    (wse = true →
      (∀ n, ("public", n) ∉ st'.sequences) ∧
      (∀ n, ("public", n) ∉ st'.enumTypes)) := by
  have hfold := runScript_ok failAt _ st st' h
  subst hfold
  refine ⟨cleanDirectives_foldl_role wse st st, ?_, ?_⟩
  · intro n hmem
    by_cases hin : ("public", n) ∈ st.tables
    · exact dropTable_mem_not_mem_foldl _ st "public" n true true
        (List.mem_cons_of_mem _
          (List.mem_append_left _ (dropTable_mem_cleanDrops wse st n hin))) hmem
    · exact hin (tables_subset_foldl _ st _ hmem)
  · rintro rfl
    constructor
    · intro n hmem
      by_cases hin : ("public", n) ∈ st.sequences
      · exact dropSequence_mem_not_mem_foldl _ st "public" n true true
          (List.mem_cons_of_mem _
            (List.mem_append_left _ (dropSequence_mem_cleanDrops st n hin))) hmem
      · exact hin (sequences_subset_foldl _ st _ hmem)
    · intro n hmem
      by_cases hin : ("public", n) ∈ st.enumTypes
      · exact dropType_mem_not_mem_foldl _ st "public" n true true
          (List.mem_cons_of_mem _
            (List.mem_append_left _ (dropType_mem_cleanDrops st n hin))) hmem
      · exact hin (enumTypes_subset_foldl _ st _ hmem)

/-- The destination state after the cleanup step: the new catalog on
success, the rolled-back (unchanged) catalog on script failure. -/
def cleanResultState (wse : Bool) (failAt : Option Nat) (st : DBState) :
    DBState :=
  match cleanDestinationDB wse failAt st with
  | .ok st' => st'
  | .error _ => st

/-- C3: the cleanup step is a single administrative script whose first
directive disables referential-integrity enforcement
(`SET session_replication_role = 'replica'`), whose middle directives drop
only public-schema objects with CASCADE — one drop per public table, and
in the part_000 variant one per public sequence and enum type — and whose
last directive re-enables enforcement; on success the resulting catalog
has enforcement enabled and no public tables (nor, in the part_000
variant, public sequences or enum types), and on any path — success or
rolled-back failure — a destination that started with enforcement enabled
ends with enforcement enabled. -/
theorem claim_C3 (wse : Bool) (failAt : Option Nat) (st : DBState) :
    (cleanDirectives wse st =
      Directive.setRole "replica" ::
        (cleanDrops wse st ++ [Directive.setRole "origin"]) ∧
     ∀ d ∈ cleanDrops wse st, isPublicCascadeDrop d = true) ∧
    (∀ n, ("public", n) ∈ st.tables →
      Directive.dropTable "public" n true true ∈ cleanDrops wse st) ∧
    (wse = true →
      (∀ n, ("public", n) ∈ st.sequences →
        Directive.dropSequence "public" n true true ∈ cleanDrops wse st) ∧
      (∀ n, ("public", n) ∈ st.enumTypes →
        Directive.dropType "public" n true true ∈ cleanDrops wse st)) ∧
    (∀ st', cleanDestinationDB wse failAt st = .ok st' →
      st'.replicationRole = "origin" ∧
      (∀ n, ("public", n) ∉ st'.tables) ∧
      (wse = true →
        (∀ n, ("public", n) ∉ st'.sequences) ∧
        (∀ n, ("public", n) ∉ st'.enumTypes))) ∧
    (st.replicationRole = "origin" →
      (cleanResultState wse failAt st).replicationRole = "origin") := by
  refine ⟨⟨rfl, cleanDrops_cascade wse st⟩,
    fun n h => dropTable_mem_cleanDrops wse st n h,
    ?_,
    fun st' h => clean_ok_post wse failAt st st' h,
    ?_⟩
  · rintro rfl
    exact ⟨fun n h => dropSequence_mem_cleanDrops st n h,
           fun n h => dropType_mem_cleanDrops st n h⟩
  · intro hrole
    unfold cleanResultState
    cases h : cleanDestinationDB wse failAt st with
    | ok st' => exact (clean_ok_post wse failAt st st' h).1
    | error e => exact hrole

/-- Destination catalog with a single public table, enforcement on. -/
def stOneTable : DBState :=
  { tables := [("public", "users")], sequences := [], enumTypes := [],
    replicationRole := "origin" }

/-- Witness for C3: cleaning a destination holding the single public table
`users` succeeds, leaves enforcement enabled on every path, and removes
the table. -/
theorem claim_C3_witness :
    (cleanResultState true none stOneTable).replicationRole = "origin" ∧
    ("public", "users") ∉
      ({ tables := [], sequences := [], enumTypes := [],
         replicationRole := "origin" } : DBState).tables := by
  refine ⟨(claim_C3 true none stOneTable).2.2.2.2 rfl, ?_⟩
  exact ((claim_C3 true none stOneTable).2.2.2.1 _ rfl).2.1 "users"

lemma clean_empty (wse : Bool) (st : DBState)
    (h1 : st.tables = []) (h2 : st.sequences = []) (h3 : st.enumTypes = []) :
    cleanDestinationDB wse none st =
      .ok { st with replicationRole := "origin" } := by
  have ht : publicNames st.tables = [] := by rw [h1]; rfl
  have hs : publicNames st.sequences = [] := by rw [h2]; rfl
  have he : publicNames st.enumTypes = [] := by rw [h3]; rfl
  have hd : cleanDirectives wse st =
      [Directive.setRole "replica", Directive.setRole "origin"] := by
    cases wse <;> simp [cleanDirectives, cleanDrops, ht, hs, he]
  simp [cleanDestinationDB, runScript, hd, applyDirective]

/-- C5: on an already-empty destination (no user tables, sequences or enum
types), the cleanup step succeeds, and running it a second time also
succeeds and returns exactly the state the first run produced. -/
theorem claim_C5 (wse : Bool) (st : DBState)
    (h1 : st.tables = []) (h2 : st.sequences = []) (h3 : st.enumTypes = []) :
    cleanDestinationDB wse none st =
      .ok { st with replicationRole := "origin" } ∧
    cleanDestinationDB wse none { st with replicationRole := "origin" } =
      .ok { st with replicationRole := "origin" } := by
  refine ⟨clean_empty wse st h1 h2 h3, ?_⟩
  exact clean_empty wse { st with replicationRole := "origin" } h1 h2 h3

/-- Witness for C5: cleaning the concrete empty destination twice succeeds
and is idempotent. -/
theorem claim_C5_witness :
    cleanDestinationDB true none
        { tables := [], sequences := [], enumTypes := [],
          replicationRole := "origin" } =
      .ok { tables := [], sequences := [], enumTypes := [],
            replicationRole := "origin" } :=
  (claim_C5 true
    { tables := [], sequences := [], enumTypes := [],
      replicationRole := "origin" } rfl rfl rfl).1

/-- C8: a successful cleanup touches only schema `public` — for every
schema other than `public`, its tables, sequences and enum types are in
the catalog after cleanup exactly when they were before. -/
theorem claim_C8 (wse : Bool) (failAt : Option Nat) (st st' : DBState)
    (h : cleanDestinationDB wse failAt st = .ok st') (sch n : String)
    (hsch : sch ≠ "public") :
    ((sch, n) ∈ st'.tables ↔ (sch, n) ∈ st.tables) ∧
    ((sch, n) ∈ st'.sequences ↔ (sch, n) ∈ st.sequences) ∧
    ((sch, n) ∈ st'.enumTypes ↔ (sch, n) ∈ st.enumTypes) := by
  have hfold := runScript_ok failAt _ st st' h
  subst hfold
  have hpub := cleanDirectives_onlyPublic wse st
  exact ⟨tables_foldl_frame _ hpub st sch n hsch,
         sequences_foldl_frame _ hpub st sch n hsch,
         enumTypes_foldl_frame _ hpub st sch n hsch⟩

/-- Destination catalog with one table outside the public schema. -/
def stOtherSchema : DBState :=
  { tables := [("other", "audit")], sequences := [], enumTypes := [],
    replicationRole := "origin" }

/-- Witness for C8: the non-public table `other.audit` survives a
successful cleanup. -/
theorem claim_C8_witness :
    ("other", "audit") ∈ stOtherSchema.tables :=
  (claim_C8 true none stOtherSchema stOtherSchema rfl "other" "audit"
      (by decide)).1.mpr (by decide)

/-! ## Filesystem model: `resetBackupDir` (src/main.go lines 120-128,
identical in src/unnamed/part_000 lines 134-143 and src/unnamed/part_001
lines 72-81) and the guarded `dumpData` of src/unnamed/part_000
(lines 172-189).

The only path the program touches is the backup directory, so the
filesystem state is the state of that one path: `none` when nothing
exists there, `some entries` when a directory with the given entries
does.  Faults of the underlying OS calls are injected through explicit
`Option String` parameters; per Go's documented semantics,
`os.RemoveAll` returns nil when the path does not exist, so the injected
removal fault can only surface when there is something to remove. -/

/-- `os.RemoveAll` on the backup path: succeeds trivially when the path
does not exist; when it exists, either the injected fault surfaces or the
path is removed. -/
def removeAll (removeFault : Option String) (d : Option (List String)) :
    Except String (Option (List String)) :=
  match d with
  | none => .ok none
  | some _ =>
    match removeFault with
    | some e => .error e
    | none => .ok none

/-- `os.MkdirAll` on the backup path: either the injected fault surfaces,
or the directory exists afterwards — freshly empty when nothing was
there, unchanged when a directory already existed (MkdirAll is a no-op on
an existing directory). -/
def mkdirAll (mkdirFault : Option String) (d : Option (List String)) :
    Except String (Option (List String)) :=
  match mkdirFault with
  | some e => .error e
  | none =>
    match d with
    | some entries => .ok (some entries)
    | none => .ok (some [])

/-- `resetBackupDir`: `RemoveAll` then `MkdirAll`; a removal error is
wrapped with the source's message prefix and returned, otherwise the
creation result is returned as-is. -/
def resetBackupDir (removeFault mkdirFault : Option String)
    (d : Option (List String)) : Except String (Option (List String)) :=
  match removeAll removeFault d with
  | .error e => .error ("failed to remove backup directory: " ++ e)
  | .ok d' => mkdirAll mkdirFault d'

/-- C6: when the backup directory does not exist, the removal phase never
fails (the "not found" condition is ignored) — the step just performs the
directory creation, and succeeds outright whenever the creation primitive
itself does not fail; and every successful run of the step, from any
starting state, ends with the directory existing and empty. -/
theorem claim_C6 :
    (∀ removeFault mkdirFault : Option String,
      resetBackupDir removeFault mkdirFault none =
        mkdirAll mkdirFault none) ∧
    (∀ removeFault : Option String,
      resetBackupDir removeFault none none = .ok (some [])) ∧
    (∀ (removeFault mkdirFault : Option String) (d d' : Option (List String)),
      resetBackupDir removeFault mkdirFault d = .ok d' →
      d' = some []) := by
  refine ⟨fun _ _ => rfl, fun _ => rfl, ?_⟩
  intro rf mf d d' h
  cases d with
  | none =>
    cases mf with
    | some e => simp [resetBackupDir, removeAll, mkdirAll] at h
    | none =>
      simpa [resetBackupDir, removeAll, mkdirAll] using h.symm
  | some entries =>
    cases rf with
    | some e => simp [resetBackupDir, removeAll] at h
    | none =>
      cases mf with
      | some e => simp [resetBackupDir, removeAll, mkdirAll] at h
      | none =>
        simpa [resetBackupDir, removeAll, mkdirAll] using h.symm

/-- Witness for C6: resetting a missing directory with healthy primitives
succeeds and leaves an existing empty directory; in particular the
success-postcondition clause applies at this concrete run. -/
theorem claim_C6_witness :
    (some [] : Option (List String)) = some [] ∧
    resetBackupDir none none none = .ok (some []) :=
  ⟨claim_C6.2.2 none none none (some []) rfl, claim_C6.2.1 none⟩

/-! ### The guarded data dump of src/unnamed/part_000 -/

/-- Events of the guarded `dumpData`: deleting the directory, and invoking
`pg_dump`, recording the state of the target path at the moment of
invocation together with the argument list. -/
inductive DumpEvent where
  | removeDir
  | pgDumpInvoke (dirAtInvocation : Option (List String)) (args : List String)
  deriving DecidableEq, Repr

/-- Argument list of the data-only dump (src/unnamed/part_000 line 185). -/
def dumpDataArgs (dir : String) : List String :=
  ["--format=directory", "--no-owner", "--no-acl", "--data-only",
   "--jobs=" ++ jobs, "--dbname=" ++ sourceDB, "--file=" ++ dir]

/-- `dumpData` of src/unnamed/part_000: if `os.Stat` does not report
"not exists" (i.e. the directory is there), remove it — aborting on a
removal error — and only then invoke `pg_dump`. -/
def dumpData (removeFault pgDumpErr : Option String)
    (d : Option (List String)) (dir : String) :
    List DumpEvent × Option String :=
  match d with
  | some _ =>
    match removeFault with
    | some e =>
      ([DumpEvent.removeDir],
       some ("failed to remove backup directory before data dump: " ++ e))
    | none =>
      ([DumpEvent.removeDir, DumpEvent.pgDumpInvoke none (dumpDataArgs dir)],
       pgDumpErr)
  | none =>
    ([DumpEvent.pgDumpInvoke none (dumpDataArgs dir)], pgDumpErr)

/-- C7: in the guarded variant, whenever the external dump tool is
invoked, the target path holds no directory at that moment and the
arguments put the tool in data-only mode with the configured parallelism;
and when a directory was present at the start of the step, it is deleted
before any invocation. -/
theorem claim_C7 (removeFault pgDumpErr : Option String)
    (d : Option (List String)) (dir : String) :
    (∀ dAt args,
      DumpEvent.pgDumpInvoke dAt args ∈ (dumpData removeFault pgDumpErr d dir).1 →
      dAt = none ∧ args = dumpDataArgs dir) ∧
    "--data-only" ∈ dumpDataArgs dir ∧
    ("--jobs=" ++ jobs) ∈ dumpDataArgs dir ∧
    (∀ entries, d = some entries →
      (dumpData removeFault pgDumpErr d dir).1.head? = some DumpEvent.removeDir) := by
  refine ⟨?_, by simp [dumpDataArgs], by simp [dumpDataArgs], ?_⟩
  · intro dAt args hmem
    cases d with
    | none =>
      simp only [dumpData, List.mem_singleton] at hmem
      exact ⟨by injection hmem, by injection hmem⟩
    | some entries =>
      cases removeFault with
      | some e =>
        simp [dumpData] at hmem
      | none =>
        simp only [dumpData, List.mem_cons, List.mem_singleton] at hmem
        rcases hmem with h | h | h
        · exact absurd h (by simp)
        · exact ⟨by injection h, by injection h⟩
        · simp at h
  · rintro entries rfl
    cases removeFault <;> rfl

/-- Witness for C7: with a leftover schema dump in the directory and
healthy primitives, the tool is invoked on a deleted path with the exact
data-only argument list. -/
theorem claim_C7_witness :
    (none : Option (List String)) = none ∧
    "--data-only" ∈ dumpDataArgs "/work/backup_dir" := by
  have h := claim_C7 none none (some ["toc.dat"]) "/work/backup_dir"
  exact ⟨(h.1 none (dumpDataArgs "/work/backup_dir") (by simp [dumpData])).1,
         h.2.1⟩

/-! ## The transaction-wrapping data restore
(`restoreDataWithTransaction`, src/unnamed/part_000 lines 191-217).

Each `exec.Command("psql", destinationDB, "-c", ...)` is its own psql
process, hence its own administrative session; the trace records each
such session with the command text it carries, and the `pg_restore`
invocation with its argument list.  The environment injects the outcome
of each external process. -/

/-- Events of the transaction-wrapped restore: a one-off administrative
session carrying a command, or the restore-tool invocation. -/
inductive TxEvent where
  | psqlSession (conn cmd : String)
  | pgRestoreRun (args : List String)
  deriving DecidableEq, Repr

/-- Argument list of the data-only restore
(src/unnamed/part_000 line 203). -/
def restoreDataArgs (dir : String) : List String :=
  ["--disable-triggers", "--jobs=" ++ jobs, "--no-owner", "--no-acl",
   "--data-only", "--dbname=" ++ destinationDB, dir]

/-- `restoreDataWithTransaction`: issue `BEGIN;` in its own session
(aborting on error), invoke `pg_restore`; on restore failure issue
`ROLLBACK;` in its own session with its result discarded and propagate
the restore error; on restore success issue `COMMIT;` in its own session
and return its result. -/
def restoreDataWithTransaction
    (beginErr restoreErr rollbackErr commitErr : Option String)
    (dir : String) : List TxEvent × Option String :=
  match beginErr with
  | some e =>
    ([TxEvent.psqlSession destinationDB "BEGIN;"],
     some ("failed to start transaction: " ++ e))
  | none =>
    match restoreErr with
    | some e =>
      ([TxEvent.psqlSession destinationDB "BEGIN;",
        TxEvent.pgRestoreRun (restoreDataArgs dir),
        TxEvent.psqlSession destinationDB "ROLLBACK;"],
       some ("data restore failed: " ++ e))
    | none =>
      ([TxEvent.psqlSession destinationDB "BEGIN;",
        TxEvent.pgRestoreRun (restoreDataArgs dir),
        TxEvent.psqlSession destinationDB "COMMIT;"],
       commitErr)

/-- C2: the wrapped restore always opens with a `BEGIN;` administrative
session; when BEGIN succeeds the restore tool runs right after it; on
restore success a `COMMIT;` session follows; on restore failure a
`ROLLBACK;` session is attempted and the restore error is propagated —
and the result never depends on the rollback session's own outcome. -/
theorem claim_C2 (beginErr restoreErr rollbackErr commitErr : Option String)
    (dir : String) :
    ((restoreDataWithTransaction beginErr restoreErr rollbackErr commitErr
        dir).1.head? = some (TxEvent.psqlSession destinationDB "BEGIN;")) ∧
    (beginErr = none → restoreErr = none →
      (restoreDataWithTransaction beginErr restoreErr rollbackErr commitErr
          dir).1 =
        [TxEvent.psqlSession destinationDB "BEGIN;",
         TxEvent.pgRestoreRun (restoreDataArgs dir),
         TxEvent.psqlSession destinationDB "COMMIT;"] ∧
      (commitErr = none →
        (restoreDataWithTransaction beginErr restoreErr rollbackErr commitErr
            dir).2 = none)) ∧
    (∀ e, beginErr = none → restoreErr = some e →
      (restoreDataWithTransaction beginErr restoreErr rollbackErr commitErr
          dir).1 =
        [TxEvent.psqlSession destinationDB "BEGIN;",
         TxEvent.pgRestoreRun (restoreDataArgs dir),
         TxEvent.psqlSession destinationDB "ROLLBACK;"] ∧
      (restoreDataWithTransaction beginErr restoreErr rollbackErr commitErr
          dir).2 = some ("data restore failed: " ++ e)) ∧
    (∀ rollbackErr' : Option String,
      restoreDataWithTransaction beginErr restoreErr rollbackErr' commitErr
          dir =
        restoreDataWithTransaction beginErr restoreErr rollbackErr commitErr
          dir) := by
    refine ⟨?_, ?_, ?_, fun _ => rfl⟩
    · cases beginErr <;> cases restoreErr <;> rfl
    · rintro rfl rfl
      exact ⟨rfl, fun h => h⟩
    · rintro e rfl rfl
      exact ⟨rfl, rfl⟩

/-- Witness for C2: a failing restore with BEGIN succeeding yields the
BEGIN / restore / ROLLBACK trace and propagates the restore error, even
when the rollback session itself fails. -/
theorem claim_C2_witness :
    (restoreDataWithTransaction none (some "deadlock detected")
        (some "rollback refused") none "/work/backup_dir").2 =
      some ("data restore failed: " ++ "deadlock detected") :=
  ((claim_C2 none (some "deadlock detected") (some "rollback refused") none
      "/work/backup_dir").2.2.1 "deadlock detected" rfl rfl).2

/-- C10: when BEGIN and the restore both succeed but the COMMIT session
fails, the step returns the commit error and no ROLLBACK session is ever
issued. -/
theorem claim_C10 (rollbackErr : Option String) (e : String) (dir : String) :
    (restoreDataWithTransaction none none rollbackErr (some e) dir).2 =
      some e ∧
    TxEvent.psqlSession destinationDB "ROLLBACK;" ∉
      (restoreDataWithTransaction none none rollbackErr (some e) dir).1 := by
  refine ⟨rfl, ?_⟩
  intro h
  simp only [restoreDataWithTransaction, List.mem_cons, List.mem_singleton] at h
  rcases h with h | h | h
  · have := congrArg (fun ev => match ev with
      | TxEvent.psqlSession _ c => c
      | _ => "") h
    simp at this
  · exact absurd h (by simp)
  · rcases h with h | h
    · have := congrArg (fun ev => match ev with
        | TxEvent.psqlSession _ c => c
        | _ => "") h
      simp at this
    · simp at h

/-- Witness for C10: concretely, a failed COMMIT after a successful
restore returns the commit error and no rollback session appears. -/
theorem claim_C10_witness :
    (restoreDataWithTransaction none none none
        (some "could not commit") "/work/backup_dir").2 =
      some "could not commit" :=
  (claim_C10 none "could not commit" "/work/backup_dir").1

end DBMig
